import Mathlib

/-!
Verification development for the grapesjs-ai-agent plugin.

The embedding models the plugin's core modules:
  * `src/api.js` (source file `part_002`): `sendMessage`, `findComponentById`,
    `applyModifications`;
  * `src/chatbot.js` (source file `part_001`, second variant with
    `lastUsedComponents`): `handleSubmit`, `addComponentBadge`,
    `removeComponentBadge`;
  * `src/index.js`: the public accessors `editor.AiAgent.getHistory` and
    `editor.AiAgent.getPendingComponents`.

Modelling conventions:
  * The host editor (GrapesJS) and the browser DOM are external collaborators
    (spec section 6).  The browser's HTML parse of a string is therefore carried
    alongside the string (`Json.str s dom` / the `frag` argument) rather than
    recomputed, and `component.components(htmlString)` — whose parse is done by
    the host editor — is recorded symbolically as `htmlRaw := some htmlString`.
  * JavaScript objects are modelled as association lists with unique keys kept
    in insertion order; property assignment replaces in place, spread merges
    left-to-right (`jsSet`, `jsMerge`).
  * JavaScript exceptions are values `JsError` with a `name` and a `message`.
    In the model the patching loop's only throw site is `newHtml.trim()` on a
    non-string value (`TypeError`); the GrapesJS node operations
    (`getAttributes`, `setAttributes`, `components`, `render`, `trigger`) are
    modelled as total.
-/

/-- Helper for `strIncludes`: does the character list contain `sub` as a
contiguous run? -/
def charsIncludes (sub : List Char) : List Char → Bool
  | [] => sub.isEmpty
  | c :: t => if sub.isPrefixOf (c :: t) then true else charsIncludes sub t

/-- JavaScript `s.includes(sub)`. -/
def strIncludes (s sub : String) : Bool := charsIncludes sub.toList s.toList

/-- JavaScript `s.toLowerCase()` (ASCII, kernel-computable). -/
def jsToLower (s : String) : String := ⟨s.toList.map Char.toLower⟩

/-- JavaScript `s.trim()`: strip leading and trailing whitespace. -/
def jsTrim (s : String) : String :=
  ⟨((s.toList.dropWhile Char.isWhitespace).reverse.dropWhile Char.isWhitespace).reverse⟩

/-- DOM node of a parsed HTML fragment: what the browser produces for
`tempDiv.innerHTML = s` (element children with their tag, attributes and
children, interleaved with text nodes). -/
inductive ENode where
  | elem (tag : String) (attrs : List (String × String)) (kids : List ENode)
  | text (s : String)
deriving Repr

/-- Whether a top-level fragment node is an element (counted by
`tempDiv.children`; text nodes are not). -/
def ENode.isElem : ENode → Bool
  | .elem _ _ _ => true
  | .text _ => false

/-- Tag of a fragment element (`firstChild.tagName`); unused for text nodes. -/
def ENode.tag : ENode → String
  | .elem t _ _ => t
  | .text _ => ""

/-- Attributes of a fragment element (`firstChild.attributes`, in document
order). -/
def ENode.attrList : ENode → List (String × String)
  | .elem _ a _ => a
  | .text _ => []

/-- Child nodes of a fragment element. -/
def ENode.kids : ENode → List ENode
  | .elem _ _ k => k
  | .text _ => []

mutual
/-- Serialization of one fragment node, as used by `firstChild.innerHTML`
(the browser's serializer, approximated without entity escaping). -/
def ENode.serialize : ENode → String
  | .text s => s
  | .elem t a k =>
      "<" ++ t ++ (a.foldl (fun acc p => acc ++ " " ++ p.1 ++ "=\x22" ++ p.2 ++ "\x22") "")
        ++ ">" ++ ENode.serializeList k ++ "</" ++ t ++ ">"
termination_by structural n => n

/-- Serialization of a list of fragment nodes (`element.innerHTML`). -/
def ENode.serializeList : List ENode → String
  | [] => ""
  | n :: ns => ENode.serialize n ++ ENode.serializeList ns
termination_by structural l => l
end

/-- Property read on a JavaScript object modelled as an assoc list
(keys unique by construction): `obj[k]`, `undefined` ↦ `none`. -/
def jsGet (o : List (String × String)) (k : String) : Option String :=
  o.lookup k

/-- Property assignment on a JavaScript object: an existing key keeps its
position and gets the new value, a new key is appended (JS insertion order). -/
def jsSet (o : List (String × String)) (k : String) (v : String) :
    List (String × String) :=
  if (o.lookup k).isSome then
    o.map (fun p => if p.1 = k then (k, v) else p)
  else
    o ++ [(k, v)]

/-- Spread merge `{...a, ...b}`: assign every entry of `b` over `a` in order. -/
def jsMerge (a b : List (String × String)) : List (String × String) :=
  b.foldl (fun acc p => jsSet acc p.1 p.2) a

/-- Assignment of a possibly-undefined value, as in `id: attributes.id` when
`attributes.id` may be `undefined`.  A key holding `undefined` is
observationally the absent key under attribute lookup, so `none` removes it. -/
def jsSetOpt (o : List (String × String)) (k : String) : Option String →
    List (String × String)
  | some v => jsSet o k v
  | none => o.filter (fun p => p.1 ≠ k)

/-- Live component node of the host editor's tree.  `cid` is the Backbone
client id, `nodeId` the value of `getId()`, `tagName` the value of
`get('tagName')`, `attrs` the value of `getAttributes()`.  Children set from an
HTML string via `component.components(htmlString)` are recorded as
`htmlRaw := some htmlString` (the parse into child components is performed by
the host editor, an external collaborator); `children` holds component-model
children. -/
inductive Node where
  | mk (cid : String) (nodeId : String) (tagName : String)
       (attrs : List (String × String)) (htmlRaw : Option String)
       (children : List Node)
deriving Repr

def Node.cid : Node → String
  | .mk c _ _ _ _ _ => c

def Node.nodeId : Node → String
  | .mk _ n _ _ _ _ => n

def Node.tagName : Node → String
  | .mk _ _ t _ _ _ => t

def Node.attrs : Node → List (String × String)
  | .mk _ _ _ a _ _ => a

def Node.htmlRaw : Node → Option String
  | .mk _ _ _ _ h _ => h

def Node.children : Node → List Node
  | .mk _ _ _ _ _ c => c

/-- The id test of `findComponentById`:
`component.cid === id || component.getId() === id`. -/
def Node.matchesId (n : Node) (id : String) : Bool :=
  n.cid == id || n.nodeId == id

mutual
/-- Depth-first search of `findComponentById`: the node itself is checked
before its subtree. -/
def findNode (id : String) : Node → Option Node
  | .mk c ni t a h ch =>
      if (Node.mk c ni t a h ch).matchesId id then some (Node.mk c ni t a h ch)
      else findList id ch
termination_by structural n => n

/-- The `findInComponents` loop: each component is checked (with its subtree)
before its later siblings. -/
def findList (id : String) : List Node → Option Node
  | [] => none
  | c :: cs =>
      match findNode id c with
      | some r => some r
      | none => findList id cs
termination_by structural l => l
end

/-- `findComponentById(id)` from the API module: the wrapper (root) is checked
first, then its components, depth-first. -/
def findComponentById (root : Node) (id : String) : Option Node :=
  findNode id root

mutual
/-- In-place mutation of the first node matching `id` in pre-order (the node
`findNode` returns): applies `f` there and reports whether a match was found.
A subtree without a match is returned unchanged. -/
def updateNode (id : String) (f : Node → Node) : Node → Node × Bool
  | .mk c ni t a h ch =>
      if (Node.mk c ni t a h ch).matchesId id then (f (Node.mk c ni t a h ch), true)
      else
        let r := updateList id f ch
        (Node.mk c ni t a h r.1, r.2)
termination_by structural n => n

/-- List version of `updateNode`, in the traversal order of `findList`. -/
def updateList (id : String) (f : Node → Node) : List Node → List Node × Bool
  | [] => ([], false)
  | c :: cs =>
      let r := updateNode id f c
      if r.2 then (r.1 :: cs, true)
      else
        let rs := updateList id f cs
        (c :: rs.1, rs.2)
termination_by structural l => l
end

/-- JSON value, as produced by `response.json()`.  A string additionally
carries `dom`, the fragment the browser's parser yields for
`tempDiv.innerHTML = s.trim()` — the parse is performed by the DOM, an external
collaborator, so the model carries it rather than recomputing it. -/
inductive Json where
  | str (s : String) (dom : List ENode)
  | num (n : Int)
  | bool (b : Bool)
  | null
  | obj (fields : List (String × Json))
  | arr (elems : List Json)
deriving Repr

/-- The `results` accumulator of `applyModifications`: `success` records the
ids pushed to `results.success` (the source also stores the live component
reference, recoverable via `findComponentById`), `failed` the
`{ id, error }` records, both in iteration order. -/
structure MResults where
  success : List String
  failed : List (String × String)
deriving Repr, DecidableEq

/-- The `newAttrs` object of the full-element-replacement branch: every
attribute of the fragment element except `id`, assigned in document order. -/
def newAttrsOf (e : ENode) : List (String × String) :=
  (e.attrList.filter (fun p => p.1 ≠ "id")).foldl (fun acc p => jsSet acc p.1 p.2) []

/-- Effect of `component.components().reset()`: children emptied, everything
else untouched. -/
def resetNode (n : Node) : Node :=
  Node.mk n.cid n.nodeId n.tagName n.attrs none []

/-- Whether a JSON value is a string (the only values `newHtml.trim()` does
not throw on). -/
def Json.isString : Json → Bool
  | .str _ _ => true
  | _ => false

/-- Body of the `try` block of `applyModifications` for a located component
and a string value `newHtml = raw` (with browser parse `frag`):
snapshot the attributes, `components().reset()`, then either leave the node
childless (blank `newHtml`), perform a full element replacement (exactly one
top-level element child whose tag matches case-insensitively), or set the
entire `newHtml` string as inner content.  `view.render()` and
`trigger('change')` are display/undo effects outside the model. -/
def patchFound (raw : String) (frag : List ENode) (n : Node) : Node :=
  let attributes := n.attrs
  let cleared := resetNode n
  if jsTrim raw = "" then cleared
  else
    match frag.filter ENode.isElem with
    | [e] =>
        if jsToLower e.tag == jsToLower n.tagName then
          let newAttrs := newAttrsOf e
          let merged := jsSetOpt (jsMerge attributes newAttrs) "id" (jsGet attributes "id")
          Node.mk n.cid n.nodeId n.tagName merged (some (ENode.serializeList e.kids)) []
        else Node.mk n.cid n.nodeId n.tagName n.attrs (some raw) []
    | _ => Node.mk n.cid n.nodeId n.tagName n.attrs (some raw) []

/-- One iteration of the `Object.entries(modifications).forEach` loop:
locate the component (not found → `Failed('Component not found')`, tree
untouched); for a string value apply `patchFound` to the located node; for a
non-string value the children are reset and then `newHtml.trim()` throws a
`TypeError` (message approximated), which the local `catch` records as the
failure for this id.  Returns the tree after the iteration and the error
recorded for the id, if any. -/
def processEntry (t : Node) (id : String) (v : Json) : Node × Option String :=
  match findComponentById t id with
  | none => (t, some "Component not found")
  | some _ =>
      match v with
      | .str raw frag => ((updateNode id (patchFound raw frag) t).1, none)
      | _ =>
          ((updateNode id resetNode t).1,
           some "newHtml.trim is not a function")

/-- `applyModifications(modifications)` of the API module: process every
`(id, newHtml)` entry in order, each in its own `try`/`catch`, accumulating
per-id outcomes.  The final `console` summary and `editor.refresh()` are
outside the model. -/
def applyModifications : Node → List (String × Json) → Node × MResults
  | t, [] => (t, ⟨[], []⟩)
  | t, (id, v) :: rest =>
      let step := processEntry t id v
      let tail := applyModifications step.1 rest
      match step.2 with
      | none => (tail.1, ⟨id :: tail.2.success, tail.2.failed⟩)
      | some e => (tail.1, ⟨tail.2.success, (id, e) :: tail.2.failed⟩)

/-- The full-element-replacement test of `applyModifications`:
`firstChild && tempDiv.children.length === 1 &&
firstChild.tagName.toLowerCase() === component.get('tagName')?.toLowerCase()`,
returning the single matching element child when the test passes. -/
def fullReplaceElem (frag : List ENode) (n : Node) : Option ENode :=
  match frag.filter ENode.isElem with
  | [e] => if jsToLower e.tag == jsToLower n.tagName then some e else none
  | _ => none

mutual
/-- Serialization of a live component (`component.toHTML()`, approximating the
host editor's serializer): tag, attributes, then children — either component
children or the raw HTML set earlier. -/
def nodeToHTML : Node → String
  | .mk _ _ t a h ch =>
      "<" ++ t ++ (a.foldl (fun acc p => acc ++ " " ++ p.1 ++ "=\x22" ++ p.2 ++ "\x22") "")
        ++ ">" ++ nodeListToHTML ch ++ (match h with | some s => s | none => "")
        ++ "</" ++ t ++ ">"
termination_by structural n => n

/-- Serialization of a list of live components. -/
def nodeListToHTML : List Node → String
  | [] => ""
  | c :: cs => nodeToHTML c ++ nodeListToHTML cs
termination_by structural l => l
end

/-- Conversation message as stored in `state.history`: the user message
carries `components` only when at least one id was referenced, and error
replies carry `isError: true`. -/
structure Message where
  role : String
  content : String
  components : Option (List String)
  isError : Bool
deriving Repr, DecidableEq

/-- History entry as projected into the request payload
(`{ role, content, components: msg.components || [] }`). -/
structure PayloadMsg where
  role : String
  content : String
  components : List String
deriving Repr, DecidableEq

/-- The JSON body `sendMessage` posts to the endpoint. -/
structure Payload where
  history : List PayloadMsg
  message : String
  components : List String
  componentData : List (String × String)
deriving Repr, DecidableEq

/-- Payload construction of `sendMessage` (lines 22–41 of the API module):
project the history, and serialize each referenced component that can be
located (ids that fail to locate are omitted from `componentData`).  The
pending list is duplicate-free, so the object/list distinction for
`componentData` keys is immaterial. -/
def buildPayload (t : Node) (message : String) (componentIds : List String)
    (history : List Message) : Payload :=
  { history := history.map (fun m => ⟨m.role, m.content, m.components.getD []⟩)
    message := message
    components := componentIds
    componentData := componentIds.filterMap (fun id =>
      (findComponentById t id).map (fun c => (id, nodeToHTML c))) }

/-- JavaScript exception value: `name` (`Error`, `TypeError`, `SyntaxError`)
and `message`. -/
structure JsError where
  name : String
  message : String
deriving Repr, DecidableEq

/-- Outcome of the `fetch` exchange, supplied by the environment:
either the promise resolved to a response (`ok` = `response.ok`, `status`,
`bodyText` = `response.text()`, `body` = result of `response.json()`, with a
`SyntaxError` message when the body is not valid JSON), or the promise was
rejected with a `TypeError` carrying `message` (network failure). -/
inductive FetchOutcome where
  | response (ok : Bool) (status : Nat) (bodyText : String) (body : Except String Json)
  | netFail (message : String)

/-- `sendMessage(message, componentIds, history)` of the API module: throw
`NotConfigured` when no endpoint is set, build the payload, perform the
exchange, and in the `catch` convert only a `TypeError` whose message
mentions `fetch` into the generic network error; every other exception
(including the thrown non-2xx `Error` and a JSON `SyntaxError`) is rethrown
unchanged. -/
def sendMessage (apiEndpoint : String) (t : Node) (message : String)
    (componentIds : List String) (history : List Message) (outcome : FetchOutcome) :
    Except JsError Json :=
  if apiEndpoint = "" then
    .error ⟨"Error", "API endpoint not configured. Please set the \x22api\x22 option."⟩
  else
    let _payload := buildPayload t message componentIds history
    let tryResult : Except JsError Json :=
      match outcome with
      | .netFail msg => .error ⟨"TypeError", msg⟩
      | .response ok status bodyText body =>
          if !ok then
            .error ⟨"Error", "API error (" ++ toString status ++ "): " ++
              (if bodyText = "" then "Unknown error" else bodyText)⟩
          else
            match body with
            | .ok data => .ok data
            | .error msg => .error ⟨"SyntaxError", msg⟩
    match tryResult with
    | .ok d => .ok d
    | .error e =>
        if e.name == "TypeError" && strIncludes e.message "fetch" then
          .error ⟨"Error", "Network error. Please check your connection and try again."⟩
        else .error e

/-- The transport result depends only on the endpoint and the exchange
outcome (the payload does not influence it); helper used to state theorems
about `handleSubmit` without repeating its internal arguments. -/
def sendOutcome (apiEndpoint : String) (outcome : FetchOutcome) : Except JsError Json :=
  sendMessage apiEndpoint (Node.mk "" "" "" [] none []) "" [] [] outcome

/-- JavaScript property access `obj[k]` on a decoded JSON value; `undefined`
is `none`.  (Property access on `null` would itself throw in JavaScript —
that corner is caught by the submit handler's `catch` and is not modelled.) -/
def getField : Json → String → Option Json
  | .obj fs, k => fs.lookup k
  | _, _ => none

/-- JavaScript truthiness of a decoded JSON value. -/
def jsonTruthy : Json → Bool
  | .str s _ => !(s == "")
  | .num n => !(n == 0)
  | .bool b => b
  | .null => false
  | .obj _ => true
  | .arr _ => true

/-- String coercion used when a truthy non-string `reply` is interpolated
into the chat (approximates JavaScript string coercion). -/
def jsonDisplay : Json → String
  | .str s _ => s
  | .num n => toString n
  | .bool b => if b then "true" else "false"
  | .null => "null"
  | .obj _ => "[object Object]"
  | .arr _ => ""

/-- `response.reply || 'I have processed your request.'`. -/
def replyText : Option Json → String
  | some j => if jsonTruthy j then jsonDisplay j else "I have processed your request."
  | none => "I have processed your request."

/-- `Object.entries(response.modifications)`: fields of an object, indexed
characters of a string, empty for the other primitives (the `null`/`false`
cases are unreachable behind the truthiness guard). -/
def jsonEntries : Json → List (String × Json)
  | .obj fs => fs
  | .str s _ => s.toList.enum.map (fun p =>
      (toString p.1, Json.str (String.singleton p.2) [ENode.text (String.singleton p.2)]))
  | _ => []

/-- Plugin conversation state shared between the modules (`state` in the
main plugin file). -/
structure ChatState where
  history : List Message
  pendingComponents : List String
  lastUsedComponents : List String
  isLoading : Bool
deriving Repr, DecidableEq

/-- `handleSubmit` of the chatbot module (the variant with
`lastUsedComponents`, lines 510–578): trim the input, fall back to the last
used components when nothing is staged, bail out when both message and
reference set are empty, remember the components, push the user message,
clear the staged set, then send and either push the assistant reply and apply
the modifications, or push the error message.  `setSubmitting(true)` and the
`finally` reset make the returned `isLoading` false; input clearing and the
render calls are DOM effects outside the model.  The third component reports
the payload handed to `fetch` (`none` when no request was built). -/
def handleSubmit (apiEndpoint inputValue : String) (outcome : FetchOutcome)
    (st : ChatState) (tree : Node) : ChatState × Node × Option Payload :=
  let message := jsTrim inputValue
  let components0 := st.pendingComponents
  let components :=
    if components0.isEmpty && !st.lastUsedComponents.isEmpty then st.lastUsedComponents
    else components0
  if message = "" && components.isEmpty then (st, tree, none)
  else
    let lastUsed := if components.isEmpty then st.lastUsedComponents else components
    let userMessage : Message :=
      ⟨"user", message, if components.isEmpty then none else some components, false⟩
    let historyAtCall := st.history ++ [userMessage]
    let req : Option Payload :=
      if apiEndpoint = "" then none
      else some (buildPayload tree message components historyAtCall)
    match sendMessage apiEndpoint tree message components historyAtCall outcome with
    | .ok response =>
        let assistantMessage : Message :=
          ⟨"assistant", replyText (getField response "reply"), none, false⟩
        let tree2 :=
          match getField response "modifications" with
          | some m => if jsonTruthy m then (applyModifications tree (jsonEntries m)).1 else tree
          | none => tree
        (⟨historyAtCall ++ [assistantMessage], [], lastUsed, false⟩, tree2, req)
    | .error e =>
        let errorMessage : Message :=
          ⟨"assistant",
           "Error: " ++
             (if e.message = "" then "Failed to process request. Please try again."
              else e.message),
           none, true⟩
        (⟨historyAtCall ++ [errorMessage], [], lastUsed, false⟩, tree, req)

/-- `addComponentBadge(componentId)`: push the id only when it is not already
staged (`renderBadges` is a DOM effect). -/
def addComponentBadge (pendingComponents : List String) (componentId : String) :
    List String :=
  if pendingComponents.contains componentId then pendingComponents
  else pendingComponents ++ [componentId]

/-- `removeComponentBadge(componentId)`: `indexOf` then `splice(index, 1)` —
remove the first occurrence, no-op when absent. -/
def removeComponentBadge (pendingComponents : List String) (componentId : String) :
    List String :=
  match pendingComponents.indexOf? componentId with
  | some i => pendingComponents.eraseIdx i
  | none => pendingComponents

/-- A call to one of the two badge mutators (also reachable through
`editor.AiAgent.addComponent` / `removeComponent`). -/
inductive BadgeOp where
  | add (id : String)
  | remove (id : String)

/-- Apply one badge operation to the staged list. -/
def applyBadgeOp (l : List String) : BadgeOp → List String
  | .add id => addComponentBadge l id
  | .remove id => removeComponentBadge l id

/-- Heap of JavaScript arrays, for aliasing statements: a cell per array,
referenced by index. -/
structure ArrayHeap (α : Type) where
  cells : List (List α)
deriving Repr

/-- Dereference an array. -/
def ArrayHeap.read (h : ArrayHeap α) (r : Nat) : List α := (h.cells[r]?).getD []

/-- Allocate a fresh array holding `v`, returning its reference. -/
def ArrayHeap.alloc (h : ArrayHeap α) (v : List α) : ArrayHeap α × Nat :=
  (⟨h.cells ++ [v]⟩, h.cells.length)

/-- Mutate the array behind a reference (models in-place `push`/`splice`/…
as replacing the cell's contents). -/
def ArrayHeap.write (h : ArrayHeap α) (r : Nat) (v : List α) : ArrayHeap α :=
  ⟨h.cells.set r v⟩

/-- `editor.AiAgent.getHistory()`: `[...state.history]` — allocate a fresh
array containing the internal history's elements and return its reference. -/
def getHistory (h : ArrayHeap Message) (historyRef : Nat) : ArrayHeap Message × Nat :=
  h.alloc (h.read historyRef)

/-- `editor.AiAgent.getPendingComponents()`: `[...state.pendingComponents]` —
allocate a fresh array containing the staged ids and return its reference. -/
def getPendingComponents (h : ArrayHeap String) (pendingRef : Nat) :
    ArrayHeap String × Nat :=
  h.alloc (h.read pendingRef)

theorem jsLookup_append (k : String) (o₁ o₂ : List (String × String)) :
    (o₁ ++ o₂).lookup k = ((o₁.lookup k).or (o₂.lookup k)) := by
  induction o₁ with
  | nil => simp [List.lookup]
  | cons p ps ih =>
      by_cases h : k = p.1
      · subst h; simp [List.lookup]
      · have hb : (k == p.1) = false := by simp [h]
        simp [List.lookup, hb, ih]

theorem jsLookup_cons_self (k v : String) (ps : List (String × String)) :
    ((k, v) :: ps).lookup k = some v := by simp [List.lookup]

theorem jsLookup_cons_ne (k a v : String) (ps : List (String × String)) (h : k ≠ a) :
    ((a, v) :: ps).lookup k = ps.lookup k := by
  have hb : (k == a) = false := by simp [h]
  simp [List.lookup, hb]

theorem jsLookup_map_ne (k v k' : String) (h : k' ≠ k) (o : List (String × String)) :
    (o.map (fun p => if p.1 = k then (k, v) else p)).lookup k' = o.lookup k' := by
  induction o with
  | nil => simp
  | cons p ps ih =>
      obtain ⟨a, b⟩ := p
      by_cases hak : a = k
      · subst hak
        rw [List.map_cons, show (if (a, b).1 = a then (a, v) else (a, b)) = (a, v) from by
          simp]
        rw [jsLookup_cons_ne k' a v _ h, ih, jsLookup_cons_ne k' a b ps h]
      · rw [List.map_cons, show (if (a, b).1 = k then (k, v) else (a, b)) = (a, b) from by
          simp [hak]]
        by_cases hk : k' = a
        · subst hk; rw [jsLookup_cons_self, jsLookup_cons_self]
        · rw [jsLookup_cons_ne k' a b _ hk, ih, jsLookup_cons_ne k' a b ps hk]

theorem jsLookup_map_self (k v : String) (o : List (String × String)) :
    (o.map (fun p => if p.1 = k then (k, v) else p)).lookup k =
      (o.lookup k).map (fun _ => v) := by
  induction o with
  | nil => simp
  | cons p ps ih =>
      obtain ⟨a, b⟩ := p
      by_cases hak : a = k
      · subst hak
        rw [List.map_cons, show (if (a, b).1 = a then (a, v) else (a, b)) = (a, v) from by
          simp]
        rw [jsLookup_cons_self, jsLookup_cons_self]
        rfl
      · rw [List.map_cons, show (if (a, b).1 = k then (k, v) else (a, b)) = (a, b) from by
          simp [hak]]
        have hne : k ≠ a := fun h => hak h.symm
        rw [jsLookup_cons_ne k a b _ hne, ih, jsLookup_cons_ne k a b ps hne]

theorem jsGet_jsSet_self (o : List (String × String)) (k v : String) :
    jsGet (jsSet o k v) k = some v := by
  unfold jsGet jsSet
  by_cases h : (o.lookup k).isSome
  · rw [if_pos h, jsLookup_map_self]
    obtain ⟨w, hw⟩ := Option.isSome_iff_exists.mp h
    rw [hw]; rfl
  · rw [if_neg h, jsLookup_append]
    have : o.lookup k = none := Option.not_isSome_iff_eq_none.mp h
    rw [this, jsLookup_cons_self]
    rfl

theorem jsGet_jsSet_ne (o : List (String × String)) (k v k' : String) (h : k' ≠ k) :
    jsGet (jsSet o k v) k' = jsGet o k' := by
  unfold jsGet jsSet
  by_cases hs : (o.lookup k).isSome
  · rw [if_pos hs, jsLookup_map_ne k v k' h]
  · rw [if_neg hs, jsLookup_append, jsLookup_cons_ne k' k v [] h]
    simp [List.lookup, Option.or]
    cases o.lookup k' <;> rfl

theorem jsLookup_filterKey_self (o : List (String × String)) (k : String) :
    (o.filter (fun p => p.1 ≠ k)).lookup k = none := by
  induction o with
  | nil => simp
  | cons p ps ih =>
      obtain ⟨a, b⟩ := p
      by_cases hak : a = k
      · simpa [List.filter, hak] using ih
      · have : (decide ¬(a = k)) = true := by simp [hak]
        rw [show ((a, b) :: ps).filter (fun p => p.1 ≠ k) =
              (a, b) :: ps.filter (fun p => p.1 ≠ k) from by simp [List.filter, hak]]
        rw [jsLookup_cons_ne k a b _ (fun hh => hak hh.symm)]
        exact ih

theorem jsLookup_filterKey_ne (o : List (String × String)) (k k' : String) (h : k' ≠ k) :
    (o.filter (fun p => p.1 ≠ k)).lookup k' = o.lookup k' := by
  induction o with
  | nil => simp
  | cons p ps ih =>
      obtain ⟨a, b⟩ := p
      by_cases hak : a = k
      · rw [show ((a, b) :: ps).filter (fun p => p.1 ≠ k) =
              ps.filter (fun p => p.1 ≠ k) from by simp [List.filter, hak]]
        rw [ih, jsLookup_cons_ne k' a b ps (hak ▸ h)]
      · rw [show ((a, b) :: ps).filter (fun p => p.1 ≠ k) =
              (a, b) :: ps.filter (fun p => p.1 ≠ k) from by simp [List.filter, hak]]
        by_cases hk : k' = a
        · subst hk; rw [jsLookup_cons_self, jsLookup_cons_self]
        · rw [jsLookup_cons_ne k' a b _ hk, ih, jsLookup_cons_ne k' a b ps hk]

theorem jsGet_jsSetOpt_self (o : List (String × String)) (k : String) (w : Option String) :
    jsGet (jsSetOpt o k w) k = w := by
  cases w with
  | some v => exact jsGet_jsSet_self o k v
  | none => exact jsLookup_filterKey_self o k

theorem jsGet_jsSetOpt_ne (o : List (String × String)) (k k' : String) (w : Option String)
    (h : k' ≠ k) : jsGet (jsSetOpt o k w) k' = jsGet o k' := by
  cases w with
  | some v => exact jsGet_jsSet_ne o k v k' h
  | none => exact jsLookup_filterKey_ne o k k' h

theorem jsLookup_eq_none_of_not_mem (o : List (String × String)) (k : String)
    (h : k ∉ o.map Prod.fst) : o.lookup k = none := by
  induction o with
  | nil => simp
  | cons p ps ih =>
      obtain ⟨a, b⟩ := p
      simp only [List.map_cons, List.mem_cons] at h
      push_neg at h
      rw [jsLookup_cons_ne k a b ps h.1]
      exact ih h.2

/-- Lookup over a spread merge, when the overriding object has unique keys
(as `newAttrs` does): a key present in the override wins, otherwise the base
object answers. -/
theorem jsGet_jsMerge (k : String) (b : List (String × String))
    (hb : (b.map Prod.fst).Nodup) :
    ∀ a, jsGet (jsMerge a b) k = ((b.lookup k).or (a.lookup k)) := by
  induction b with
  | nil => intro a; simp [jsMerge, jsGet]
  | cons p ps ih =>
      intro a
      obtain ⟨k0, v0⟩ := p
      have hps : (ps.map Prod.fst).Nodup := (List.nodup_cons.mp (by simpa using hb)).2
      have hk0 : k0 ∉ ps.map Prod.fst := (List.nodup_cons.mp (by simpa using hb)).1
      rw [show jsMerge a ((k0, v0) :: ps) = jsMerge (jsSet a k0 v0) ps from rfl]
      rw [ih hps (jsSet a k0 v0)]
      by_cases hk : k = k0
      · subst hk
        rw [jsLookup_eq_none_of_not_mem ps k hk0, jsLookup_cons_self]
        rw [show List.lookup k (jsSet a k v0) = some v0 from jsGet_jsSet_self a k v0]
        rfl
      · rw [jsLookup_cons_ne k k0 v0 ps hk]
        rw [show List.lookup k (jsSet a k0 v0) = List.lookup k a from jsGet_jsSet_ne a k0 v0 k hk]

theorem jsLookup_isSome_of_mem (o : List (String × String)) (k : String)
    (h : k ∈ o.map Prod.fst) : (o.lookup k).isSome = true := by
  induction o with
  | nil => simp at h
  | cons q qs ih =>
      obtain ⟨a, b⟩ := q
      by_cases hq : k = a
      · subst hq; rw [jsLookup_cons_self]; rfl
      · have hmem : k ∈ qs.map Prod.fst := by
          simp only [List.map_cons, List.mem_cons] at h
          rcases h with heq | hm
          · exact absurd heq hq
          · exact hm
        rw [jsLookup_cons_ne k a b qs hq]
        exact ih hmem

theorem jsSet_keys_nodup (o : List (String × String)) (k v : String)
    (h : (o.map Prod.fst).Nodup) : ((jsSet o k v).map Prod.fst).Nodup := by
  unfold jsSet
  by_cases hs : (o.lookup k).isSome
  · rw [if_pos hs]
    have : (o.map (fun p => if p.1 = k then (k, v) else p)).map Prod.fst = o.map Prod.fst := by
      rw [List.map_map]
      apply List.map_congr_left
      intro p _
      by_cases hp : p.1 = k <;> simp [hp]
    rw [this]; exact h
  · rw [if_neg hs]
    have hnm : k ∉ o.map Prod.fst := fun hm => hs (jsLookup_isSome_of_mem o k hm)
    rw [List.map_append]
    refine List.nodup_append.mpr ⟨h, by simp, ?_⟩
    intro x hx hk2
    simp at hk2
    subst hk2
    exact hnm hx

theorem foldl_jsSet_keys_nodup (l : List (String × String)) :
    ∀ acc : List (String × String), (acc.map Prod.fst).Nodup →
      ((l.foldl (fun m p => jsSet m p.1 p.2) acc).map Prod.fst).Nodup := by
  induction l with
  | nil => intro acc h; exact h
  | cons p ps ih => intro acc h; exact ih _ (jsSet_keys_nodup acc p.1 p.2 h)

theorem newAttrsOf_keys_nodup (e : ENode) : ((newAttrsOf e).map Prod.fst).Nodup :=
  foldl_jsSet_keys_nodup _ [] (by simp)

/-- A node whose id test succeeds is returned by `findNode` immediately. -/
theorem findNode_self (id : String) (n : Node) (hn : n.matchesId id = true) :
    findNode id n = some n := by
  cases n with
  | mk c ni t a h ch => rw [findNode, if_pos hn]

mutual
/-- A node returned by `findNode` satisfies the id test. -/
theorem findNode_matches (id : String) :
    ∀ n m : Node, findNode id n = some m → m.matchesId id = true
  | .mk c ni t a h ch, m, hf => by
      cases hm : (Node.mk c ni t a h ch).matchesId id with
      | true =>
          rw [findNode, if_pos hm] at hf
          cases hf; exact hm
      | false =>
          rw [findNode, if_neg (by simp [hm])] at hf
          exact findList_matches id ch m hf
termination_by n => sizeOf n

/-- A node returned by `findList` satisfies the id test. -/
theorem findList_matches (id : String) :
    ∀ (l : List Node) (m : Node), findList id l = some m → m.matchesId id = true
  | [], m, hf => by rw [findList] at hf; cases hf
  | c :: cs, m, hf => by
      rw [findList] at hf
      cases hc : findNode id c with
      | some r => rw [hc] at hf; cases hf; exact findNode_matches id c m hc
      | none => rw [hc] at hf; exact findList_matches id cs m hf
termination_by l => sizeOf l
end

mutual
/-- When the id is absent from a subtree, `updateNode` leaves it unchanged. -/
theorem updateNode_of_none (id : String) (f : Node → Node) :
    ∀ n : Node, findNode id n = none → updateNode id f n = (n, false)
  | .mk c ni t a h ch, hf => by
      cases hm : (Node.mk c ni t a h ch).matchesId id with
      | true => rw [findNode, if_pos hm] at hf; cases hf
      | false =>
          rw [findNode, if_neg (by simp [hm])] at hf
          rw [updateNode, if_neg (by simp [hm])]
          rw [updateList_of_none id f ch hf]
termination_by n => sizeOf n

/-- When the id is absent from a list of subtrees, `updateList` leaves it
unchanged. -/
theorem updateList_of_none (id : String) (f : Node → Node) :
    ∀ l : List Node, findList id l = none → updateList id f l = (l, false)
  | [], _ => by rw [updateList]
  | c :: cs, hf => by
      rw [findList] at hf
      cases hc : findNode id c with
      | some r => rw [hc] at hf; cases hf
      | none =>
          rw [hc] at hf
          rw [updateList, updateNode_of_none id f c hc]
          rw [updateList_of_none id f cs hf]
          rfl
termination_by l => sizeOf l
end

mutual
/-- `updateNode` rewrites exactly the node `findNode` locates: afterwards the
same search returns the rewritten node (provided the rewrite keeps the node
matching its id, which every patch in the source does — `cid` and `getId()`
are never touched). -/
theorem updateNode_of_some (id : String) (f : Node → Node) :
    ∀ n m : Node, findNode id n = some m → (f m).matchesId id = true →
      (updateNode id f n).2 = true ∧
      findNode id (updateNode id f n).1 = some (f m)
  | .mk c ni t a h ch, m, hf, hfm => by
      cases hm : (Node.mk c ni t a h ch).matchesId id with
      | true =>
          rw [findNode, if_pos hm] at hf
          cases hf
          rw [updateNode, if_pos hm]
          exact ⟨rfl, findNode_self id _ hfm⟩
      | false =>
          rw [findNode, if_neg (by simp [hm])] at hf
          have ih := updateList_of_some id f ch m hf hfm
          rw [updateNode, if_neg (by simp [hm])]
          refine ⟨ih.1, ?_⟩
          have hmach : ¬((Node.mk c ni t a h (updateList id f ch).1).matchesId id = true) := by
            simp [Node.matchesId, Node.cid, Node.nodeId] at hm ⊢
            exact hm
          rw [findNode, if_neg hmach]
          exact ih.2
termination_by n => sizeOf n

/-- List version of `updateNode_of_some`. -/
theorem updateList_of_some (id : String) (f : Node → Node) :
    ∀ (l : List Node) (m : Node), findList id l = some m → (f m).matchesId id = true →
      (updateList id f l).2 = true ∧
      findList id (updateList id f l).1 = some (f m)
  | [], m, hf, _ => by rw [findList] at hf; cases hf
  | c :: cs, m, hf, hfm => by
      rw [findList] at hf
      cases hc : findNode id c with
      | some r =>
          rw [hc] at hf
          cases hf
          have ihn := updateNode_of_some id f c m hc hfm
          simp only [updateList]
          rw [if_pos ihn.1]
          refine ⟨rfl, ?_⟩
          rw [findList, ihn.2]
      | none =>
          rw [hc] at hf
          have hn := updateNode_of_none id f c hc
          have ih := updateList_of_some id f cs m hf hfm
          rw [updateList, hn]
          show ((c :: (updateList id f cs).1, (updateList id f cs).2).2 = true ∧
            findList id (c :: (updateList id f cs).1, (updateList id f cs).2).1 = some (f m))
          refine ⟨ih.1, ?_⟩
          rw [findList, hc]
          exact ih.2
termination_by l => sizeOf l
end

theorem patchFound_matchesId (raw : String) (frag : List ENode) (n : Node) (id : String) :
    (patchFound raw frag n).matchesId id = n.matchesId id := by
  unfold patchFound
  split
  · simp [resetNode, Node.matchesId, Node.cid, Node.nodeId]
  · split
    · split
      · simp [Node.matchesId, Node.cid, Node.nodeId]
      · simp [Node.matchesId, Node.cid, Node.nodeId]
    · simp [Node.matchesId, Node.cid, Node.nodeId]

/-- `patchFound` through the lens of the full-element-replacement test. -/
theorem patchFound_eq (raw : String) (frag : List ENode) (n : Node) :
    patchFound raw frag n =
      if jsTrim raw = "" then resetNode n
      else
        match fullReplaceElem frag n with
        | some e =>
            Node.mk n.cid n.nodeId n.tagName
              (jsSetOpt (jsMerge n.attrs (newAttrsOf e)) "id" (jsGet n.attrs "id"))
              (some (ENode.serializeList e.kids)) []
        | none => Node.mk n.cid n.nodeId n.tagName n.attrs (some raw) [] := by
  unfold patchFound fullReplaceElem
  by_cases h : jsTrim raw = ""
  · rw [if_pos h, if_pos h]
  · rw [if_neg h, if_neg h]
    rcases hf : frag.filter ENode.isElem with _ | ⟨e, rest⟩
    · rfl
    · cases rest with
      | nil =>
          by_cases ht : (jsToLower e.tag == jsToLower n.tagName) = true
          · simp [ht]
          · simp [ht]
      | cons e2 es => rfl

theorem processEntry_not_found (t : Node) (id : String) (v : Json)
    (h : findComponentById t id = none) :
    processEntry t id v = (t, some "Component not found") := by
  unfold processEntry
  rw [h]

theorem processEntry_found_str (t : Node) (id raw : String) (frag : List ENode) (n : Node)
    (h : findComponentById t id = some n) :
    (processEntry t id (.str raw frag)).2 = none ∧
    findComponentById (processEntry t id (.str raw frag)).1 id =
      some (patchFound raw frag n) := by
  have hm : n.matchesId id = true := findNode_matches id t n h
  have hfm : (patchFound raw frag n).matchesId id = true := by
    rw [patchFound_matchesId]; exact hm
  have hu := updateNode_of_some id (patchFound raw frag) t n h hfm
  unfold processEntry
  rw [h]
  exact ⟨rfl, hu.2⟩

theorem processEntry_found_nonstr (t : Node) (id : String) (v : Json) (n : Node)
    (h : findComponentById t id = some n) (hv : v.isString = false) :
    (processEntry t id v).2 = some "newHtml.trim is not a function" ∧
    findComponentById (processEntry t id v).1 id = some (resetNode n) := by
  have hm : n.matchesId id = true := findNode_matches id t n h
  have hfm : (resetNode n).matchesId id = true := by
    simpa [resetNode, Node.matchesId, Node.cid, Node.nodeId] using hm
  have hu := updateNode_of_some id resetNode t n h hfm
  unfold processEntry
  rw [h]
  cases v with
  | str s d => simp [Json.isString] at hv
  | num m => exact ⟨rfl, hu.2⟩
  | bool b => exact ⟨rfl, hu.2⟩
  | null => exact ⟨rfl, hu.2⟩
  | obj fs => exact ⟨rfl, hu.2⟩
  | arr es => exact ⟨rfl, hu.2⟩

/-- C1 (amended): a `Failed` outcome is all-or-nothing only in the
not-found case, where the tree is wholly untouched.  When an exception is
thrown after the node has been located (the model's throw site is
`newHtml.trim()` on a non-string value), the recorded outcome is `Failed`
but the node's children have already been cleared by
`component.components().reset()`; only the attributes are still unchanged. -/
theorem C1_amended_thm (t : Node) (id : String) (v : Json) (n : Node) :
    (findComponentById t id = none →
      processEntry t id v = (t, some "Component not found")) ∧
    (findComponentById t id = some n → v.isString = false →
      (processEntry t id v).2 = some "newHtml.trim is not a function" ∧
      findComponentById (processEntry t id v).1 id =
        some (Node.mk n.cid n.nodeId n.tagName n.attrs none [])) :=
  ⟨fun h => processEntry_not_found t id v h,
   fun h hv => processEntry_found_nonstr t id v n h hv⟩

/-- C1 counterexample: in the batch `{ c1: null }` against a tree whose node
`c1` has one child, the outcome recorded for `c1` is `Failed`, yet the node's
children after `applyModifications` are empty where before they held the
child — the patch was partially applied, contradicting all-or-nothing. -/
theorem C1_counterexample :
    (applyModifications
        (Node.mk "wrap" "wrapper" "body" [] none
          [Node.mk "cid1" "c1" "div" [("id", "c1")] none
            [Node.mk "cid2" "c2" "span" [] none []]])
        [("c1", Json.null)]).2.failed = [("c1", "newHtml.trim is not a function")] ∧
    (findComponentById
        (Node.mk "wrap" "wrapper" "body" [] none
          [Node.mk "cid1" "c1" "div" [("id", "c1")] none
            [Node.mk "cid2" "c2" "span" [] none []]]) "c1").map Node.children =
      some [Node.mk "cid2" "c2" "span" [] none []] ∧
    (findComponentById
        (applyModifications
          (Node.mk "wrap" "wrapper" "body" [] none
            [Node.mk "cid1" "c1" "div" [("id", "c1")] none
              [Node.mk "cid2" "c2" "span" [] none []]])
          [("c1", Json.null)]).1 "c1").map Node.children = some [] ∧
    some ([] : List Node) ≠ some [Node.mk "cid2" "c2" "span" [] none []] :=
  ⟨rfl, rfl, rfl, by simp⟩

/-- C1 witness: the amended theorem applied to a concrete missing id and to a
concrete non-string entry. -/
theorem C1_witness :
    (processEntry (Node.mk "w" "w" "body" [] none []) "ghost" Json.null =
      (Node.mk "w" "w" "body" [] none [], some "Component not found")) ∧
    ((processEntry
        (Node.mk "w" "w" "body" [] none
          [Node.mk "x" "c1" "div" [("id", "c1")] none
            [Node.mk "y" "c2" "p" [] none []]]) "c1" (Json.num 3)).2 =
      some "newHtml.trim is not a function" ∧
     findComponentById
        (processEntry
          (Node.mk "w" "w" "body" [] none
            [Node.mk "x" "c1" "div" [("id", "c1")] none
              [Node.mk "y" "c2" "p" [] none []]]) "c1" (Json.num 3)).1 "c1" =
      some (Node.mk "x" "c1" "div" [("id", "c1")] none [])) :=
  ⟨(C1_amended_thm (Node.mk "w" "w" "body" [] none []) "ghost" Json.null
      (Node.mk "w" "w" "body" [] none [])).1 (by rfl),
   (C1_amended_thm
      (Node.mk "w" "w" "body" [] none
        [Node.mk "x" "c1" "div" [("id", "c1")] none
          [Node.mk "y" "c2" "p" [] none []]]) "c1" (Json.num 3)
      (Node.mk "x" "c1" "div" [("id", "c1")] none
        [Node.mk "y" "c2" "p" [] none []])).2 (by rfl) (by rfl)⟩

/-- C2: for a non-blank string value on a found node, the patch is recorded
as applied, and: when the fragment has exactly one top-level element whose
tag matches the node's tag case-insensitively (`fullReplaceElem`), the
element's inner markup becomes the node's new children and its attributes are
merged over the node's, new values winning on every key other than the
identifier; in every other case (zero, multiple, or a tag-mismatched single
top-level element) the entire `newHtml` string becomes the node's new
children and the node's tag and attributes are untouched. -/
theorem C2_thm (t : Node) (id raw : String) (frag : List ENode) (n : Node)
    (hfound : findComponentById t id = some n) (hnb : jsTrim raw ≠ "") :
    (processEntry t id (Json.str raw frag)).2 = none ∧
    ∃ n2, findComponentById (processEntry t id (Json.str raw frag)).1 id = some n2 ∧
      (∀ e, fullReplaceElem frag n = some e →
        n2.htmlRaw = some (ENode.serializeList e.kids) ∧ n2.children = [] ∧
        n2.tagName = n.tagName ∧
        ∀ k, k ≠ "id" →
          jsGet n2.attrs k = ((jsGet (newAttrsOf e) k).or (jsGet n.attrs k))) ∧
      (fullReplaceElem frag n = none →
        n2.htmlRaw = some raw ∧ n2.children = [] ∧ n2.attrs = n.attrs ∧
        n2.tagName = n.tagName) := by
  obtain ⟨h1, h2⟩ := processEntry_found_str t id raw frag n hfound
  refine ⟨h1, patchFound raw frag n, h2, ?_, ?_⟩
  · intro e he
    rw [patchFound_eq, if_neg hnb, he]
    refine ⟨rfl, rfl, rfl, ?_⟩
    intro k hk
    show jsGet (jsSetOpt (jsMerge n.attrs (newAttrsOf e)) "id" (jsGet n.attrs "id")) k = _
    rw [jsGet_jsSetOpt_ne _ "id" k _ hk]
    exact jsGet_jsMerge k (newAttrsOf e) (newAttrsOf_keys_nodup e) n.attrs
  · intro he
    rw [patchFound_eq, if_neg hnb, he]
    exact ⟨rfl, rfl, rfl, rfl⟩

/-- C2 witness: the theorem applied to a concrete full-replacement patch
(`<button class="btn" style="color:red">Click</button>` onto a `button`
node). -/
theorem C2_witness :
    (findComponentById
        (Node.mk "w" "w" "body" [] none
          [Node.mk "b1" "c1" "button" [("id", "c1"), ("class", "btn")] none []]) "c1" =
      some (Node.mk "b1" "c1" "button" [("id", "c1"), ("class", "btn")] none [])) ∧
    jsTrim "<button class=\x22btn\x22 style=\x22color:red\x22>Click</button>" ≠ "" ∧
    ((processEntry
        (Node.mk "w" "w" "body" [] none
          [Node.mk "b1" "c1" "button" [("id", "c1"), ("class", "btn")] none []]) "c1"
        (Json.str "<button class=\x22btn\x22 style=\x22color:red\x22>Click</button>"
          [ENode.elem "BUTTON" [("class", "btn"), ("style", "color:red")]
            [ENode.text "Click"]])).2 = none ∧
     ∃ n2, findComponentById
        (processEntry
          (Node.mk "w" "w" "body" [] none
            [Node.mk "b1" "c1" "button" [("id", "c1"), ("class", "btn")] none []]) "c1"
          (Json.str "<button class=\x22btn\x22 style=\x22color:red\x22>Click</button>"
            [ENode.elem "BUTTON" [("class", "btn"), ("style", "color:red")]
              [ENode.text "Click"]])).1 "c1" = some n2 ∧
      (∀ e, fullReplaceElem
          [ENode.elem "BUTTON" [("class", "btn"), ("style", "color:red")]
            [ENode.text "Click"]]
          (Node.mk "b1" "c1" "button" [("id", "c1"), ("class", "btn")] none []) = some e →
        n2.htmlRaw = some (ENode.serializeList e.kids) ∧ n2.children = [] ∧
        n2.tagName = (Node.mk "b1" "c1" "button" [("id", "c1"), ("class", "btn")]
          none []).tagName ∧
        ∀ k, k ≠ "id" →
          jsGet n2.attrs k = ((jsGet (newAttrsOf e) k).or
            (jsGet (Node.mk "b1" "c1" "button" [("id", "c1"), ("class", "btn")]
              none []).attrs k))) ∧
      (fullReplaceElem
          [ENode.elem "BUTTON" [("class", "btn"), ("style", "color:red")]
            [ENode.text "Click"]]
          (Node.mk "b1" "c1" "button" [("id", "c1"), ("class", "btn")] none []) = none →
        n2.htmlRaw = some "<button class=\x22btn\x22 style=\x22color:red\x22>Click</button>" ∧
        n2.children = [] ∧
        n2.attrs = (Node.mk "b1" "c1" "button" [("id", "c1"), ("class", "btn")]
          none []).attrs ∧
        n2.tagName = (Node.mk "b1" "c1" "button" [("id", "c1"), ("class", "btn")]
          none []).tagName)) :=
  ⟨rfl, by decide,
   C2_thm (Node.mk "w" "w" "body" [] none
       [Node.mk "b1" "c1" "button" [("id", "c1"), ("class", "btn")] none []]) "c1"
     "<button class=\x22btn\x22 style=\x22color:red\x22>Click</button>"
     [ENode.elem "BUTTON" [("class", "btn"), ("style", "color:red")]
       [ENode.text "Click"]]
     (Node.mk "b1" "c1" "button" [("id", "c1"), ("class", "btn")] none [])
     (by rfl) (by decide)⟩

/-- C3: a full-element-replacement patch preserves the node's identifier
attribute: after the patch, looking up `id` in the node's attributes yields
exactly what it yielded before, even when the fragment carries a different
`id` attribute. -/
theorem C3_thm (t : Node) (id raw : String) (frag : List ENode) (n : Node) (e : ENode)
    (hfound : findComponentById t id = some n) (hnb : jsTrim raw ≠ "")
    (hfull : fullReplaceElem frag n = some e) :
    ∃ n2, findComponentById (processEntry t id (Json.str raw frag)).1 id = some n2 ∧
      jsGet n2.attrs "id" = jsGet n.attrs "id" := by
  obtain ⟨-, h2⟩ := processEntry_found_str t id raw frag n hfound
  refine ⟨patchFound raw frag n, h2, ?_⟩
  rw [patchFound_eq, if_neg hnb, hfull]
  exact jsGet_jsSetOpt_self _ "id" _

/-- C3 witness: the theorem applied to a fragment that carries a different
`id` attribute (`id="OTHER"`). -/
theorem C3_witness :
    (findComponentById
        (Node.mk "w" "w" "body" [] none
          [Node.mk "b1" "c1" "button" [("id", "c1"), ("class", "btn")] none []]) "c1" =
      some (Node.mk "b1" "c1" "button" [("id", "c1"), ("class", "btn")] none [])) ∧
    jsTrim "<button id=\x22OTHER\x22>Go</button>" ≠ "" ∧
    fullReplaceElem [ENode.elem "BUTTON" [("id", "OTHER")] [ENode.text "Go"]]
      (Node.mk "b1" "c1" "button" [("id", "c1"), ("class", "btn")] none []) =
      some (ENode.elem "BUTTON" [("id", "OTHER")] [ENode.text "Go"]) ∧
    ∃ n2, findComponentById
        (processEntry
          (Node.mk "w" "w" "body" [] none
            [Node.mk "b1" "c1" "button" [("id", "c1"), ("class", "btn")] none []]) "c1"
          (Json.str "<button id=\x22OTHER\x22>Go</button>"
            [ENode.elem "BUTTON" [("id", "OTHER")] [ENode.text "Go"]])).1 "c1" =
        some n2 ∧
      jsGet n2.attrs "id" =
        jsGet (Node.mk "b1" "c1" "button" [("id", "c1"), ("class", "btn")]
          none []).attrs "id" :=
  ⟨rfl, by decide, rfl,
   C3_thm (Node.mk "w" "w" "body" [] none
       [Node.mk "b1" "c1" "button" [("id", "c1"), ("class", "btn")] none []]) "c1"
     "<button id=\x22OTHER\x22>Go</button>"
     [ENode.elem "BUTTON" [("id", "OTHER")] [ENode.text "Go"]]
     (Node.mk "b1" "c1" "button" [("id", "c1"), ("class", "btn")] none [])
     (ENode.elem "BUTTON" [("id", "OTHER")] [ENode.text "Go"])
     (by rfl) (by decide) (by rfl)⟩

/-- C4: `applyModifications` treats every id independently — an id without a
matching node is recorded as `Failed('Component not found')` with the tree
untouched while the remaining entries are still processed on the same tree,
and the returned result assigns exactly one outcome (success or failed) to
every entry of the input mapping, counted with multiplicity. -/
theorem C4_thm (t : Node) (mods : List (String × Json)) (idq id : String) (v : Json)
    (rest : List (String × Json)) (hnf : findComponentById t id = none) :
    ((applyModifications t mods).2.success.count idq +
      ((applyModifications t mods).2.failed.map Prod.fst).count idq =
      (mods.map Prod.fst).count idq) ∧
    (applyModifications t ((id, v) :: rest) =
      ((applyModifications t rest).1,
       ⟨(applyModifications t rest).2.success,
        (id, "Component not found") :: (applyModifications t rest).2.failed⟩)) := by
  constructor
  · clear hnf
    induction mods generalizing t with
    | nil => simp [applyModifications]
    | cons p ps ih =>
        obtain ⟨pid, pv⟩ := p
        have IH := ih (processEntry t pid pv).1
        simp only [applyModifications]
        cases hs : (processEntry t pid pv).2 with
        | none =>
            by_cases hb : (idq == pid) = true <;>
              simp [List.count_cons, hb]
            · omega
            · omega
        | some e =>
            by_cases hb : (idq == pid) = true <;>
              simp [List.count_cons, hb]
            · omega
            · omega
  · simp only [applyModifications]
    rw [processEntry_not_found t id v hnf]

/-- C4 witness: the theorem applied to a batch with a missing id (`ghost`):
each entry gets exactly one outcome, and a not-found head is recorded without
stopping the rest of the batch. -/
theorem C4_witness :
    (findComponentById (Node.mk "w" "w" "body" [] none
        [Node.mk "x" "c1" "div" [("id", "c1")] none []]) "ghost" = none) ∧
    ((applyModifications (Node.mk "w" "w" "body" [] none
        [Node.mk "x" "c1" "div" [("id", "c1")] none []])
        [("c1", Json.str "" []), ("ghost", Json.str "" []),
         ("c1", Json.str "x" [ENode.text "x"])]).2.success.count "c1" +
      ((applyModifications (Node.mk "w" "w" "body" [] none
        [Node.mk "x" "c1" "div" [("id", "c1")] none []])
        [("c1", Json.str "" []), ("ghost", Json.str "" []),
         ("c1", Json.str "x" [ENode.text "x"])]).2.failed.map Prod.fst).count "c1" =
      (([("c1", Json.str "" []), ("ghost", Json.str "" []),
         ("c1", Json.str "x" [ENode.text "x"])].map Prod.fst).count "c1")) ∧
    (applyModifications (Node.mk "w" "w" "body" [] none
        [Node.mk "x" "c1" "div" [("id", "c1")] none []])
        [("ghost", Json.null), ("c1", Json.str "hi" [ENode.text "hi"])] =
      ((applyModifications (Node.mk "w" "w" "body" [] none
          [Node.mk "x" "c1" "div" [("id", "c1")] none []])
          [("c1", Json.str "hi" [ENode.text "hi"])]).1,
       ⟨(applyModifications (Node.mk "w" "w" "body" [] none
          [Node.mk "x" "c1" "div" [("id", "c1")] none []])
          [("c1", Json.str "hi" [ENode.text "hi"])]).2.success,
        ("ghost", "Component not found") ::
          (applyModifications (Node.mk "w" "w" "body" [] none
            [Node.mk "x" "c1" "div" [("id", "c1")] none []])
            [("c1", Json.str "hi" [ENode.text "hi"])]).2.failed⟩)) :=
  ⟨rfl,
   (C4_thm (Node.mk "w" "w" "body" [] none
       [Node.mk "x" "c1" "div" [("id", "c1")] none []])
     [("c1", Json.str "" []), ("ghost", Json.str "" []),
      ("c1", Json.str "x" [ENode.text "x"])] "c1" "ghost" Json.null []
     (by rfl)).1,
   (C4_thm (Node.mk "w" "w" "body" [] none
       [Node.mk "x" "c1" "div" [("id", "c1")] none []])
     [] "c1" "ghost" Json.null
     [("c1", Json.str "hi" [ENode.text "hi"])] (by rfl)).2⟩

/-- C5 (amended): a non-2xx response makes `sendMessage` throw an error
carrying the HTTP status (the `ServiceError` analogue); a body that is not
valid JSON makes the parse `SyntaxError` propagate unchanged — it is not
converted into a generic decoding-failure `ServiceError` (the submit
handler's catch-all keeps it from crashing the UI); and the shape of
`modifications` is never validated — a 2xx response whose decoded body has a
non-mapping `modifications` is returned as a success. -/
theorem C5_amended_thm (apiEndpoint : String) (t : Node) (message : String)
    (cs : List String) (hist : List Message) (status : Nat) (bodyText : String)
    (body : Except String Json) (j : Json) (perr : String)
    (hep : apiEndpoint ≠ "") :
    (sendMessage apiEndpoint t message cs hist
        (.response false status bodyText body) =
      .error ⟨"Error", "API error (" ++ toString status ++ "): " ++
        (if bodyText = "" then "Unknown error" else bodyText)⟩) ∧
    (sendMessage apiEndpoint t message cs hist
        (.response true status bodyText (.error perr)) =
      .error ⟨"SyntaxError", perr⟩) ∧
    (sendMessage apiEndpoint t message cs hist
        (.response true status bodyText (.ok j)) = .ok j) := by
  refine ⟨?_, ?_, ?_⟩ <;>
    simp only [sendMessage, if_neg hep] <;> rfl

/-- C5 counterexample: a 2xx response whose `modifications` field is the
number `5` is returned by `sendMessage` as a plain success carrying that
value — it is not treated as a `ServiceError` with a decoding-failure
reason, contradicting the claim. -/
theorem C5_counterexample :
    sendMessage "https://api.example.test" (Node.mk "w" "w" "body" [] none [])
        "hi" [] []
        (.response true 200 ""
          (.ok (Json.obj [("reply", Json.str "ok" [ENode.text "ok"]),
            ("modifications", Json.num 5)]))) =
      .ok (Json.obj [("reply", Json.str "ok" [ENode.text "ok"]),
        ("modifications", Json.num 5)]) ∧
    getField (Json.obj [("reply", Json.str "ok" [ENode.text "ok"]),
        ("modifications", Json.num 5)]) "modifications" = some (Json.num 5) :=
  ⟨rfl, rfl⟩

/-- C5 witness: the amended theorem at a concrete endpoint, status 503,
parse error and decoded body. -/
theorem C5_witness :
    ("https://api.example.test" ≠ "") ∧
    ((sendMessage "https://api.example.test" (Node.mk "w" "w" "body" [] none [])
        "hi" [] [] (.response false 503 "overloaded" (.ok Json.null)) =
      .error ⟨"Error", "API error (" ++ toString 503 ++ "): " ++
        (if "overloaded" = "" then "Unknown error" else "overloaded")⟩) ∧
     (sendMessage "https://api.example.test" (Node.mk "w" "w" "body" [] none [])
        "hi" [] [] (.response true 503 "overloaded"
          (.error "Unexpected token < in JSON at position 0")) =
      .error ⟨"SyntaxError", "Unexpected token < in JSON at position 0"⟩) ∧
     (sendMessage "https://api.example.test" (Node.mk "w" "w" "body" [] none [])
        "hi" [] [] (.response true 503 "overloaded" (.ok Json.null)) =
      .ok Json.null)) :=
  ⟨by decide,
   C5_amended_thm "https://api.example.test" (Node.mk "w" "w" "body" [] none [])
     "hi" [] [] 503 "overloaded" (.ok Json.null) Json.null
     "Unexpected token < in JSON at position 0" (by decide)⟩

theorem sendMessage_eq_sendOutcome (apiEndpoint : String) (t : Node) (message : String)
    (cs : List String) (hist : List Message) (outcome : FetchOutcome) :
    sendMessage apiEndpoint t message cs hist outcome = sendOutcome apiEndpoint outcome := by
  rfl

/-- C6: whenever the transport step fails — `NotConfigured` before any call,
or a thrown `NetworkError`/`ServiceError` — `handleSubmit` leaves the
component tree untouched: `applyModifications` only ever runs after a
successful, decoded response. -/
theorem C6_thm (apiEndpoint inputValue : String) (outcome : FetchOutcome)
    (st : ChatState) (tree : Node) (e : JsError)
    (herr : sendOutcome apiEndpoint outcome = .error e) :
    (handleSubmit apiEndpoint inputValue outcome st tree).2.1 = tree := by
  simp only [handleSubmit]
  split
  all_goals split
  any_goals rfl
  all_goals rw [sendMessage_eq_sendOutcome, herr]

/-- C6 witness: a network failure (`fetch` rejection) leaves a concrete tree
unchanged. -/
theorem C6_witness :
    (sendOutcome "https://api.example.test" (.netFail "Failed to fetch") =
      .error ⟨"Error", "Network error. Please check your connection and try again."⟩) ∧
    (handleSubmit "https://api.example.test" "make it red"
        (.netFail "Failed to fetch")
        ⟨[], ["c1"], [], false⟩
        (Node.mk "w" "w" "body" [] none
          [Node.mk "x" "c1" "div" [("id", "c1")] none []])).2.1 =
      Node.mk "w" "w" "body" [] none
        [Node.mk "x" "c1" "div" [("id", "c1")] none []] :=
  ⟨rfl,
   C6_thm "https://api.example.test" "make it red" (.netFail "Failed to fetch")
     ⟨[], ["c1"], [], false⟩
     (Node.mk "w" "w" "body" [] none
       [Node.mk "x" "c1" "div" [("id", "c1")] none []])
     ⟨"Error", "Network error. Please check your connection and try again."⟩
     (by rfl)⟩

/-- C7: on every submit that proceeds, the staged selection is cleared, the
last-used selection is updated to the effective reference set (the staged
selection when non-empty, otherwise the carried-over last-used selection),
and the recorded user message carries exactly that effective reference
set. -/
theorem C7_thm (apiEndpoint inputValue : String) (outcome : FetchOutcome)
    (st : ChatState) (tree : Node)
    (hcase : st.pendingComponents ≠ [] ∨ st.lastUsedComponents ≠ []) :
    (handleSubmit apiEndpoint inputValue outcome st tree).1.pendingComponents = [] ∧
    (handleSubmit apiEndpoint inputValue outcome st tree).1.lastUsedComponents =
      (if st.pendingComponents.isEmpty then st.lastUsedComponents
       else st.pendingComponents) ∧
    (handleSubmit apiEndpoint inputValue outcome st tree).1.history[st.history.length]? =
      some ⟨"user", jsTrim inputValue,
        some (if st.pendingComponents.isEmpty then st.lastUsedComponents
              else st.pendingComponents), false⟩ := by
  have hne : (if st.pendingComponents.isEmpty then st.lastUsedComponents
      else st.pendingComponents) ≠ [] := by
    by_cases hp : st.pendingComponents.isEmpty = true
    · rw [if_pos hp]
      rcases hcase with h1 | h2
      · exact absurd (List.isEmpty_iff.mp hp) h1
      · exact h2
    · rw [if_neg hp]
      intro hc
      exact hp (by simp [hc])
  have hie : (if st.pendingComponents.isEmpty then st.lastUsedComponents
      else st.pendingComponents).isEmpty = false := by
    cases hh : (if st.pendingComponents.isEmpty then st.lastUsedComponents
      else st.pendingComponents).isEmpty
    · rfl
    · exact absurd (List.isEmpty_iff.mp hh) hne
  have hcomp : (if st.pendingComponents.isEmpty && !st.lastUsedComponents.isEmpty
      then st.lastUsedComponents else st.pendingComponents) =
      (if st.pendingComponents.isEmpty then st.lastUsedComponents
       else st.pendingComponents) := by
    by_cases hp : st.pendingComponents.isEmpty = true
    · by_cases hl : st.lastUsedComponents.isEmpty = true
      · rw [List.isEmpty_iff.mp hp, List.isEmpty_iff.mp hl]
        simp
      · simp [hp, hl]
    · simp [hp]
  simp only [handleSubmit, hcomp, hie, Bool.and_false, Bool.false_eq_true, if_false]
  refine ⟨?_, ?_, ?_⟩
  · split
    · rfl
    · rfl
  · split
    · rfl
    · rfl
  · split
    · show ((st.history ++ [_]) ++ [_])[st.history.length]? = _
      rw [List.append_assoc, List.getElem?_append_right (Nat.le_refl _)]
      simp
    · show ((st.history ++ [_]) ++ [_])[st.history.length]? = _
      rw [List.append_assoc, List.getElem?_append_right (Nat.le_refl _)]
      simp

/-- C7 witness: the theorem applied to a submit with a staged selection
(`pendingComponents = ["c1"]`), and to a follow-up submit with an empty
staged selection but a non-empty last-used selection (`["c2"]`). -/
theorem C7_witness :
    ((["c1"] : List String) ≠ [] ∨ ([] : List String) ≠ []) ∧
    ((handleSubmit "https://api.example.test" "make it red"
        (.response true 200 "" (.ok (Json.obj [])))
        ⟨[], ["c1"], [], false⟩ (Node.mk "w" "w" "body" [] none [])).1.pendingComponents
        = [] ∧
     (handleSubmit "https://api.example.test" "make it red"
        (.response true 200 "" (.ok (Json.obj [])))
        ⟨[], ["c1"], [], false⟩ (Node.mk "w" "w" "body" [] none [])).1.lastUsedComponents
        = (if (["c1"] : List String).isEmpty then ([] : List String) else ["c1"]) ∧
     (handleSubmit "https://api.example.test" "make it red"
        (.response true 200 "" (.ok (Json.obj [])))
        ⟨[], ["c1"], [], false⟩
        (Node.mk "w" "w" "body" [] none [])).1.history[([] : List Message).length]? =
       some ⟨"user", jsTrim "make it red",
         some (if (["c1"] : List String).isEmpty then ([] : List String) else ["c1"]),
         false⟩) ∧
    (([] : List String) ≠ [] ∨ (["c2"] : List String) ≠ []) ∧
    ((handleSubmit "https://api.example.test" "again"
        (.response true 200 "" (.ok (Json.obj [])))
        ⟨[], [], ["c2"], false⟩ (Node.mk "w" "w" "body" [] none [])).1.lastUsedComponents
        = (if ([] : List String).isEmpty then (["c2"] : List String) else []) ∧
     (handleSubmit "https://api.example.test" "again"
        (.response true 200 "" (.ok (Json.obj [])))
        ⟨[], [], ["c2"], false⟩
        (Node.mk "w" "w" "body" [] none [])).1.history[([] : List Message).length]? =
       some ⟨"user", jsTrim "again",
         some (if ([] : List String).isEmpty then (["c2"] : List String) else []),
         false⟩) :=
  ⟨Or.inl (by decide),
   C7_thm "https://api.example.test" "make it red"
     (.response true 200 "" (.ok (Json.obj [])))
     ⟨[], ["c1"], [], false⟩ (Node.mk "w" "w" "body" [] none [])
     (Or.inl (by decide)),
   Or.inr (by decide),
   (C7_thm "https://api.example.test" "again"
     (.response true 200 "" (.ok (Json.obj [])))
     ⟨[], [], ["c2"], false⟩ (Node.mk "w" "w" "body" [] none [])
     (Or.inr (by decide))).2⟩

/-- C8: starting from the empty staged list, any sequence of
`addComponentBadge`/`removeComponentBadge` calls yields a duplicate-free
list, and adding an id that is already staged leaves the list unchanged. -/
theorem C8_thm (ops : List BadgeOp) (l : List String) (id : String) (hmem : id ∈ l) :
    (ops.foldl applyBadgeOp []).Nodup ∧ addComponentBadge l id = l := by
  constructor
  · have H : ∀ (os : List BadgeOp) (acc : List String), acc.Nodup →
        (os.foldl applyBadgeOp acc).Nodup := by
      intro os
      induction os with
      | nil => intro acc hacc; simpa using hacc
      | cons op rest ih =>
          intro acc hacc
          rw [List.foldl_cons]
          apply ih
          cases op with
          | add i =>
              show (addComponentBadge acc i).Nodup
              unfold addComponentBadge
              by_cases hc : acc.contains i = true
              · rw [if_pos hc]; exact hacc
              · rw [if_neg hc]
                have hni : i ∉ acc := fun hm => hc (by simpa using hm)
                refine List.nodup_append.mpr ⟨hacc, by simp, ?_⟩
                intro x hx hx2
                simp only [List.mem_singleton] at hx2
                subst hx2
                exact hni hx
          | remove i =>
              show (removeComponentBadge acc i).Nodup
              unfold removeComponentBadge
              cases hidx : acc.indexOf? i with
              | none => exact hacc
              | some ix => exact List.Nodup.sublist (List.eraseIdx_sublist acc ix) hacc
    exact H ops [] (by simp)
  · unfold addComponentBadge
    rw [if_pos (by simpa using hmem)]

/-- C8 witness: a concrete call sequence (including a duplicate add and a
remove) keeps the staged list duplicate-free, and re-adding a staged id is a
no-op. -/
theorem C8_witness :
    ("a" ∈ (["a"] : List String)) ∧
    (([BadgeOp.add "a", BadgeOp.add "b", BadgeOp.add "a",
       BadgeOp.remove "b"].foldl applyBadgeOp []).Nodup ∧
     addComponentBadge ["a"] "a" = ["a"]) :=
  ⟨by decide,
   C8_thm [BadgeOp.add "a", BadgeOp.add "b", BadgeOp.add "a", BadgeOp.remove "b"]
     ["a"] "a" (by decide)⟩

/-- C9: submitting with a blank (whitespace-only) message while both the
staged and the last-used selections are empty is a complete no-op: the state
(history, staged selection, last-used selection, loading flag) is returned
unchanged, the tree is untouched, and no request payload is built. -/
theorem C9_thm (apiEndpoint inputValue : String) (outcome : FetchOutcome)
    (st : ChatState) (tree : Node)
    (hmsg : jsTrim inputValue = "") (hpend : st.pendingComponents = [])
    (hlast : st.lastUsedComponents = []) :
    handleSubmit apiEndpoint inputValue outcome st tree = (st, tree, none) := by
  simp [handleSubmit, hmsg, hpend, hlast]

/-- C9 witness: the theorem applied to a whitespace-only input and empty
selections. -/
theorem C9_witness :
    jsTrim "   " = "" ∧
    (ChatState.mk [⟨"user", "hi", none, false⟩] [] [] false).pendingComponents = [] ∧
    (ChatState.mk [⟨"user", "hi", none, false⟩] [] [] false).lastUsedComponents = [] ∧
    handleSubmit "https://api.example.test" "   " (.netFail "x")
        (ChatState.mk [⟨"user", "hi", none, false⟩] [] [] false)
        (Node.mk "w" "w" "body" [] none []) =
      (ChatState.mk [⟨"user", "hi", none, false⟩] [] [] false,
       Node.mk "w" "w" "body" [] none [], none) :=
  ⟨by decide, rfl, rfl,
   C9_thm "https://api.example.test" "   " (.netFail "x")
     (ChatState.mk [⟨"user", "hi", none, false⟩] [] [] false)
     (Node.mk "w" "w" "body" [] none []) (by decide) rfl rfl⟩

theorem arrayHeap_copy_fresh {α : Type} (h : ArrayHeap α) (r : Nat)
    (hr : r < h.cells.length) :
    (h.alloc (h.read r)).2 ≠ r ∧
    (h.alloc (h.read r)).1.read (h.alloc (h.read r)).2 = h.read r ∧
    ∀ v, ((h.alloc (h.read r)).1.write (h.alloc (h.read r)).2 v).read r = h.read r := by
  refine ⟨(Nat.ne_of_lt hr).symm, ?_, ?_⟩
  · show ((h.cells ++ [h.read r])[h.cells.length]?).getD [] = h.read r
    rw [List.getElem?_concat_length]
    rfl
  · intro v
    show (((h.cells ++ [h.read r]).set h.cells.length v)[r]?).getD [] = h.read r
    rw [List.getElem?_set_ne (Nat.ne_of_lt hr).symm,
      List.getElem?_append_left hr]
    rfl

/-- C10: `editor.AiAgent.getHistory()` and
`editor.AiAgent.getPendingComponents()` return fresh arrays: the returned
reference differs from the internal one, the copy's elements equal the
internal array's elements at call time, and overwriting the returned array
never changes the internal history or staged selection. -/
theorem C10_thm (hm : ArrayHeap Message) (rh : Nat) (hp : ArrayHeap String) (rp : Nat)
    (hhr : rh < hm.cells.length) (hpr : rp < hp.cells.length) :
    ((getHistory hm rh).2 ≠ rh ∧
     (getHistory hm rh).1.read (getHistory hm rh).2 = hm.read rh ∧
     ∀ v, ((getHistory hm rh).1.write (getHistory hm rh).2 v).read rh = hm.read rh) ∧
    ((getPendingComponents hp rp).2 ≠ rp ∧
     (getPendingComponents hp rp).1.read (getPendingComponents hp rp).2 = hp.read rp ∧
     ∀ v, ((getPendingComponents hp rp).1.write (getPendingComponents hp rp).2 v).read rp =
       hp.read rp) :=
  ⟨arrayHeap_copy_fresh hm rh hhr, arrayHeap_copy_fresh hp rp hpr⟩

/-- C10 witness: concrete heaps holding one history array and one staged-ids
array; overwriting the returned copies leaves the internal cells unchanged. -/
theorem C10_witness :
    (0 < (ArrayHeap.mk [[(⟨"user", "hi", none, false⟩ : Message)]]).cells.length) ∧
    (0 < (ArrayHeap.mk [["c1", "c2"]]).cells.length) ∧
    (((getHistory (ArrayHeap.mk [[(⟨"user", "hi", none, false⟩ : Message)]]) 0).2 ≠ 0 ∧
      (getHistory (ArrayHeap.mk [[(⟨"user", "hi", none, false⟩ : Message)]]) 0).1.read
        (getHistory (ArrayHeap.mk [[(⟨"user", "hi", none, false⟩ : Message)]]) 0).2 =
        (ArrayHeap.mk [[(⟨"user", "hi", none, false⟩ : Message)]]).read 0 ∧
      ∀ v, ((getHistory (ArrayHeap.mk [[(⟨"user", "hi", none, false⟩ : Message)]]) 0).1.write
          (getHistory (ArrayHeap.mk [[(⟨"user", "hi", none, false⟩ : Message)]]) 0).2 v).read 0 =
        (ArrayHeap.mk [[(⟨"user", "hi", none, false⟩ : Message)]]).read 0) ∧
     ((getPendingComponents (ArrayHeap.mk [["c1", "c2"]]) 0).2 ≠ 0 ∧
      (getPendingComponents (ArrayHeap.mk [["c1", "c2"]]) 0).1.read
        (getPendingComponents (ArrayHeap.mk [["c1", "c2"]]) 0).2 =
        (ArrayHeap.mk [["c1", "c2"]]).read 0 ∧
      ∀ v, ((getPendingComponents (ArrayHeap.mk [["c1", "c2"]]) 0).1.write
          (getPendingComponents (ArrayHeap.mk [["c1", "c2"]]) 0).2 v).read 0 =
        (ArrayHeap.mk [["c1", "c2"]]).read 0)) :=
  ⟨by decide, by decide,
   C10_thm (ArrayHeap.mk [[(⟨"user", "hi", none, false⟩ : Message)]]) 0
     (ArrayHeap.mk [["c1", "c2"]]) 0 (by decide) (by decide)⟩
